import Mathlib

/-!
Verification of the tiliawrangler converter (src/tiliawrangler.py).

The Python source is shallowly embedded: XML elements become structures,
the csv writer becomes a list of rows, stderr diagnostics become a log
(`List String`), and Python exceptions become `Except.error`.  Python
floats are modelled as exact rationals (`Rat`): the decimal literals the
program handles are represented exactly, and `float.is_integer()` becomes
`Rat.den = 1`.  Width/position counters (`int(...)` attributes) are `Int`.
-/

deriving instance DecidableEq for Except

namespace Tilia

/-! ## Module-level configuration constants (lines 15-44 of the source) -/

def SKIP_TILIA_ROWS : List Int := [2]

def SKIP_TILIA_COLUMNS : List Int := [1, 3, 4, 5, 6]

/-- `TILIA_START_DATA = (8, 3)`, start at H3. -/
def TILIA_START_DATA : Int × Int := (8, 3)

def GEOCHRONOLOGY_FIELDS : List String := [
  "Method", "AgeUnits", "Depth", "Thickness", "LabNumber", "Age", "ErrorOlder",
  "ErrorYounger", "Sigma", "StdDev", "GreaterThan", "Parameters", "MaterialDated",
  "PublicationsText", "Publications"]

def GEOCHRONOLOGY_PARAMETERS : String := "Parameters"

def GEOCHRONOLOGY_PUBLICATIONS : String := "Publications"

def LITHOLOGY_FIELDS : List String := ["DepthTop", "DepthBottom", "Description"]

def PUBLICATION_FIELDS : List String := [
  "PublicationType", "NeotomaID", "PublicationYear", "Citation", "Authors", "Title",
  "SeriesNumber", "Publisher", "City", "Country"]

def PUBLICATION_AUTHORS : String := "Authors"

/-! ## The value model and Python `float(...)` parsing

`parse_cell` returns a Python value: a string, an int, a float, or `None`.
-/

inductive CellValue where
  | str (s : String)
  | int (n : Int)
  | float (q : Rat)
  | null
deriving DecidableEq, Repr

/-- One `<cell>` element of the sparse sheet: its `row` attribute and the
optional `<text>` and `<value>` child payloads (a child's text content). -/
structure Cell where
  row : Int
  text : Option String
  value : Option String
deriving DecidableEq, Repr

def digit_val (c : Char) : Nat := c.toNat - 48

def digits_val (cs : List Char) : Nat :=
  cs.foldl (fun a c => a * 10 + digit_val c) 0

def is_digit_list (cs : List Char) : Bool := cs.all Char.isDigit

def parse_sign : List Char → Int × List Char
  | '+' :: rest => (1, rest)
  | '-' :: rest => (-1, rest)
  | cs => (1, cs)

/-- Mantissa of a decimal literal: digits with an optional point
(`"12"`, `"12."`, `".5"`, `"12.5"`), returned as the pair of its combined
digit value and its number of fraction digits (so its value is
`n / 10 ^ k`). -/
def parse_unsigned_mantissa (cs : List Char) : Option (Nat × Nat) :=
  let ip := cs.takeWhile (fun c => c != '.')
  let rest := cs.dropWhile (fun c => c != '.')
  match rest with
  | [] => if ip ≠ [] ∧ is_digit_list ip then some (digits_val ip, 0) else none
  | _ :: fp =>
    if is_digit_list ip ∧ is_digit_list fp ∧ (ip ≠ [] ∨ fp ≠ []) then
      some (digits_val ip * 10 ^ fp.length + digits_val fp, fp.length)
    else none

def parse_exponent (cs : List Char) : Option Int :=
  let sd := parse_sign cs
  if sd.2 ≠ [] ∧ is_digit_list sd.2 then some (sd.1 * (digits_val sd.2 : Int)) else none

/-- The exact rational value `sign * n / 10 ^ k * 10 ^ e`. -/
def decimal_to_rat (sign : Int) (n k : Nat) (e : Int) : Rat :=
  if 0 ≤ e then Rat.divInt (sign * n * 10 ^ e.toNat) (10 ^ k)
  else Rat.divInt (sign * n) (10 ^ (k + (-e).toNat))

/-- Python `float(s)` on plain decimal literals (optional sign, digits with an
optional point, optional exponent).  Inputs Python would reject yield `none`,
which the embedding of `parse_cell` turns into the propagating `ValueError`.
(Whitespace trimming, `inf`/`nan`, underscore separators and overflow of the
binary-float range are outside the embedded fragment.) -/
def parse_float (s : String) : Option Rat :=
  let sd := parse_sign s.toList
  let man := sd.2.takeWhile (fun c => !(c == 'e' || c == 'E'))
  let rest := sd.2.dropWhile (fun c => !(c == 'e' || c == 'E'))
  match rest with
  | [] => (parse_unsigned_mantissa man).map (fun nk => decimal_to_rat sd.1 nk.1 nk.2 0)
  | _ :: es =>
    match parse_unsigned_mantissa man, parse_exponent es with
    | some nk, some e => some (decimal_to_rat sd.1 nk.1 nk.2 e)
    | _, _ => none

/-- `parse_cell` (source lines 51-67).  The pair's second component is the
stderr diagnostic log; a `ValueError` from `float(...)` is `Except.error`. -/
def parse_cell (tilia_row_cell : Cell) : Except String (CellValue × List String) :=
  match tilia_row_cell.text with
  | some t => .ok (.str t, [])
  | none =>
    match tilia_row_cell.value with
    | some s =>
      match parse_float s with
      | none => .error ("could not convert string to float: " ++ s)
      | some numerical_value =>
        if numerical_value.den = 1 then .ok (.int numerical_value.num, [])
        else .ok (.float numerical_value, [])
    | none => .ok (.null, ["Unknown Cell"])

/-! ## The sparse grid reconstructor (`parse_row`, `calculate_col_length`,
`parse_sheet`, source lines 70-127)

The source's two `while` loops that emit fill values (lines 76-83 for an
interior gap, lines 90-97 for the trailing fill up to `first_col_length`)
have the same body; `fill_loop csv_row_id previous fuel` runs that body
`fuel` times starting from `previous_column = previous`.  The gap loop runs
`current_column - 1 - previous_column` times, the trailing loop
`first_col_length - previous_column` times. -/

def fill_loop (csv_row_id : Int) : Int → Nat → List CellValue
  | _, 0 => []
  | previous_column, fuel + 1 =>
    (if (previous_column + 1) ∈ SKIP_TILIA_ROWS then []
     else if TILIA_START_DATA.1 ≤ csv_row_id ∧ TILIA_START_DATA.2 ≤ previous_column + 1 then
       [CellValue.int 0]
     else [CellValue.str ""]) ++ fill_loop csv_row_id (previous_column + 1) fuel

/-- The `for tilia_row_cell in tilia_col` loop of `parse_row` (lines 73-88):
returns the values appended so far, the final `previous_column`, and the
diagnostic log.  A `ValueError` escaping `parse_cell` aborts the row. -/
def parse_row_cells (csv_row_id : Int) : List Cell → Int →
    Except String (List CellValue × Int × List String)
  | [], previous_column => .ok ([], previous_column, [])
  | tilia_row_cell :: rest, previous_column =>
    let current_column := tilia_row_cell.row
    let fills := fill_loop csv_row_id previous_column (current_column - 1 - previous_column).toNat
    if current_column ∈ SKIP_TILIA_ROWS then
      match parse_row_cells csv_row_id rest current_column with
      | .error e => .error e
      | .ok (vs, p, ls) => .ok (fills ++ vs, p, ls)
    else
      match parse_cell tilia_row_cell with
      | .error e => .error e
      | .ok (v, l) =>
        match parse_row_cells csv_row_id rest current_column with
        | .error e => .error e
        | .ok (vs, p, ls) => .ok (fills ++ v :: vs, p, l ++ ls)

/-- `parse_row` starting from an arbitrary `previous_column` (the source
initialises it to `0`, line 72): the cell loop followed by the trailing
fill loop up to `first_col_length`. -/
def parse_row_from (csv_row_id : Int) (cells : List Cell) (previous_column L : Int) :
    Except String (List CellValue × List String) :=
  match parse_row_cells csv_row_id cells previous_column with
  | .error e => .error e
  | .ok (vs, p, ls) => .ok (vs ++ fill_loop csv_row_id p (L - p).toNat, ls)

/-- `parse_row` (source lines 70-99). -/
def parse_row (tilia_col : List Cell) (csv_row_id first_col_length : Int) :
    Except String (List CellValue × List String) :=
  parse_row_from csv_row_id tilia_col 0 first_col_length

/-- `calculate_col_length` (source lines 102-108): maximum `row` attribute,
starting from `-1`. -/
def calculate_col_length (tilia_col : List Cell) : Int :=
  tilia_col.foldl (fun max_row_id cell => if cell.row > max_row_id then cell.row else max_row_id) (-1)

/-- One `<col>` element: its `ID` attribute and its cells. -/
structure Column where
  ID : Int
  cells : List Cell
deriving DecidableEq, Repr

set_option linter.unusedVariables false in
/-- The `for tilia_col in data` loop of `parse_sheet` (lines 114-127),
carrying `first_col_length` (`none` until the first column is visited) and
`previous_row`.  The source's own `while` loop over `previous_row` (lines
119-122) has an empty body and only this bookkeeping effect. -/
def parse_sheet_aux (first_col_length : Option Int) (previous_row : Int) :
    List Column → Except String (List (List CellValue) × List String)
  | [] => .ok ([], [])
  | tilia_col :: rest =>
    let fcl := first_col_length.getD (calculate_col_length tilia_col.cells)
    let current_row := tilia_col.ID
    if current_row ∈ SKIP_TILIA_COLUMNS then
      parse_sheet_aux (some fcl) current_row rest
    else
      match parse_row tilia_col.cells current_row fcl with
      | .error e => .error e
      | .ok (row, l) =>
        match parse_sheet_aux (some fcl) current_row rest with
        | .error e => .error e
        | .ok (rows, ls) => .ok (row :: rows, l ++ ls)

/-- `parse_sheet` (source lines 111-127); the csv writer becomes the
returned list of rows. -/
def parse_sheet (data : List Column) : Except String (List (List CellValue) × List String) :=
  parse_sheet_aux none 0 data

/-! ## Specification-side descriptions of the reconstructor

The following definitions follow the spec's words, to be compared with the
source-derived functions above. -/

/-- The spec's fill-value policy: `0` exactly when the owning row's declared
position is at or past the data-start row-threshold `8` and the gap's row
position is at or past the data-start column-threshold `3`; otherwise the
empty string. -/
def fill_policy_spec (csv_row_id pos : Int) : CellValue :=
  if 8 ≤ csv_row_id ∧ 3 ≤ pos then CellValue.int 0 else CellValue.str ""

/-- The `n` integer positions strictly after `prev`: `prev+1, …, prev+n`. -/
def gap_positions (prev : Int) : Nat → List Int
  | 0 => []
  | n + 1 => (prev + 1) :: gap_positions (prev + 1) n

/-- The non-skipped row positions in the interval `(prev, bound]`. -/
def row_positions (prev bound : Int) : List Int :=
  (gap_positions prev (bound - prev).toNat).filter (fun p => p ∉ SKIP_TILIA_ROWS)

/-- The `row` attribute of the last cell of the column, or `prev` if there is
none (tracks the final value of `previous_column`). -/
def last_row (prev : Int) (cells : List Cell) : Int :=
  cells.foldl (fun _ c => c.row) prev

/-- Spec-side value at one position: the resolved cell at that position when
one exists, and the spec's fill value otherwise. -/
def row_spec_at (csv_row_id : Int) (cells : List Cell) (p : Int) :
    Except String (List CellValue × List String) :=
  match cells.find? (fun c => c.row == p) with
  | some c =>
    match parse_cell c with
    | .error e => .error e
    | .ok (v, l) => .ok ([v], l)
  | none => .ok ([fill_policy_spec csv_row_id p], [])

/-- Spec-side row builder over a list of positions. -/
def row_spec_seg (csv_row_id : Int) (cells : List Cell) :
    List Int → Except String (List CellValue × List String)
  | [] => .ok ([], [])
  | p :: ps =>
    match row_spec_at csv_row_id cells p with
    | .error e => .error e
    | .ok (v, l) =>
      match row_spec_seg csv_row_id cells ps with
      | .error e => .error e
      | .ok (vs, ls) => .ok (v ++ vs, l ++ ls)

/-- Spec-side sheet builder: one dense row per non-skipped column, each built
by `parse_row` with the same fixed canonical width. -/
def sheet_rows_spec (first_col_length : Int) :
    List Column → Except String (List (List CellValue) × List String)
  | [] => .ok ([], [])
  | col :: rest =>
    if col.ID ∈ SKIP_TILIA_COLUMNS then sheet_rows_spec first_col_length rest
    else
      match parse_row col.cells col.ID first_col_length with
      | .error e => .error e
      | .ok (row, l) =>
        match sheet_rows_spec first_col_length rest with
        | .error e => .error e
        | .ok (rows, ls) => .ok (row :: rows, l ++ ls)

/-- Spec-side direct dense transcription of one column: every cell resolved by
the cell-value resolver, in declared order. -/
def transcribe_column : List Cell → Except String (List CellValue × List String)
  | [] => .ok ([], [])
  | c :: rest =>
    match parse_cell c with
    | .error e => .error e
    | .ok (v, l) =>
      match transcribe_column rest with
      | .error e => .error e
      | .ok (vs, ls) => .ok (v :: vs, l ++ ls)

/-- Spec-side direct dense transcription of a sheet, in declared order. -/
def spec_dense_transcription : List Column → Except String (List (List CellValue) × List String)
  | [] => .ok ([], [])
  | col :: rest =>
    match transcribe_column col.cells with
    | .error e => .error e
    | .ok (row, l) =>
      match spec_dense_transcription rest with
      | .error e => .error e
      | .ok (rows, ls) => .ok (row :: rows, l ++ ls)

/-! ## The entity indexer and id-indexed lookup tables
(`extract_tlx_to_indexed_list`, source lines 139-144)

A Python `dict` keyed by `int` is modelled as an association list with the
CPython semantics: assigning to an existing key replaces its value in place
(keeping its position in the insertion order), assigning a fresh key appends
it.  `dict.values()` enumerates in that order. -/

def dict_insert {α : Type} : List (Int × α) → Int → α → List (Int × α)
  | [], k, v => [(k, v)]
  | (k0, v0) :: rest, k, v =>
    if k0 = k then (k, v) :: rest else (k0, v0) :: dict_insert rest k v

def dict_get? {α : Type} (d : List (Int × α)) (k : Int) : Option α :=
  (d.find? (fun p => p.1 == k)).map Prod.snd

/-- `extract_tlx_to_indexed_list` (source lines 139-144): index a collection
of records by their integer `ID` attribute, later entries overwriting. -/
def extract_tlx_to_indexed_list {α : Type} (getID : α → Int) (tlx_element : List α) :
    List (Int × α) :=
  tlx_element.foldl (fun result entry => dict_insert result (getID entry) entry) []

/-! ## The relational flattener (source lines 163-265) -/

/-- A `<Contact>` record: `ShortContactName` and `NeotomaContactID` texts, the
optional `Email` element, and the `ID` attribute used for indexing. -/
structure Contact where
  ID : Int
  shortContactName : String
  email : Option String
  neotomaContactID : String
deriving DecidableEq, Repr

/-- A `<Publication>` record: its `ID` attribute, its named field texts
(looked up by `find`), and the contact ids of its `Authors` sub-list. -/
structure Publication where
  ID : Int
  fields : List (String × String)
  authors : List Int
deriving DecidableEq, Repr

/-- `element.find(name).text`: `none` models a missing child element (whose
`.text` access would raise `AttributeError`). -/
def find_field (fields : List (String × String)) (name : String) : Option String :=
  (fields.find? (fun p => p.1 == name)).map Prod.snd

/-- `[element.find(name).text for name in names]`; a missing child raises. -/
def texts_of (fields : List (String × String)) : List String → Except String (List String)
  | [] => .ok []
  | name :: rest =>
    match find_field fields name with
    | none => .error ("AttributeError: " ++ name)
    | some t => (texts_of fields rest).map (fun ts => t :: ts)

/-- `[db[i] for i in refs]`: resolve each foreign-key id through an
id-indexed table; a missing id raises `KeyError`. -/
def resolve_refs {α : Type} (db : List (Int × α)) : List Int → Except String (List α)
  | [] => .ok []
  | pid :: rest =>
    match dict_get? db pid with
    | none => .error ("KeyError: " ++ toString pid)
    | some v => (resolve_refs db rest).map (fun vs => v :: vs)

/-- `get_author_string` (source lines 163-171). -/
def get_author_string (contact : Contact) : String :=
  match contact.email with
  | none => contact.shortContactName ++ " (Neotoma: " ++ contact.neotomaContactID ++ ")"
  | some e =>
    contact.shortContactName ++ " (" ++ e ++ ") (Neotoma: " ++ contact.neotomaContactID ++ ")"

/-- The collector lines of `extract_collection_unit_txt` (source lines
198-200): each collector id resolved through the contacts table. -/
def collection_unit_collector_lines (contacts : List (Int × Contact)) :
    List Int → Except String (List String)
  | [] => .ok []
  | cid :: rest =>
    match dict_get? contacts cid with
    | none => .error ("KeyError: " ++ toString cid)
    | some c =>
      (collection_unit_collector_lines contacts rest).map
        (fun ls => ("Collector: " ++ get_author_string c) :: ls)

/-- One geochronology `<Sample>`: its field texts, its `Parameters` sub-list
(`Name`/`Value` text pairs, in document order) and the publication ids of its
`Publications` sub-list. -/
structure GeoSample where
  fields : List (String × String)
  parameters : List (String × String)
  publications : List Int
deriving DecidableEq, Repr

/-- The `<Geochronology>` element: its `AnalysisUnitID` attribute and its
samples. -/
structure Geochron where
  analysisUnit : String
  samples : List GeoSample
deriving DecidableEq, Repr

/-- `"%s: %s" % (x.find('Name').text, x.find('Value').text)`. -/
def parameter_string (p : String × String) : String := p.1 ++ ": " ++ p.2

/-- `[el.find('NeotomaID').text for el in publication_elements]`. -/
def neotoma_ids : List Publication → Except String (List String)
  | [] => .ok []
  | p :: rest =>
    match find_field p.fields "NeotomaID" with
    | none => .error "AttributeError: NeotomaID"
    | some t => (neotoma_ids rest).map (fun ts => t :: ts)

/-- The body of the `for sample in geochronolgy` loop of
`extract_geochronology_csv` (source lines 215-235): the base field texts with
the `Parameters` and `Publications` entries replaced by joined strings. -/
def extract_geochronology_sample_row (publication_db : List (Int × Publication))
    (sample : GeoSample) : Except String (List String) :=
  match texts_of sample.fields GEOCHRONOLOGY_FIELDS with
  | .error e => .error e
  | .ok row =>
    let row := row.set (GEOCHRONOLOGY_FIELDS.findIdx (fun f => f == GEOCHRONOLOGY_PARAMETERS))
      (", ".intercalate (sample.parameters.map parameter_string))
    match resolve_refs publication_db sample.publications with
    | .error e => .error e
    | .ok publication_elements =>
      match neotoma_ids publication_elements with
      | .error e => .error e
      | .ok publication_strings =>
        .ok (row.set (GEOCHRONOLOGY_FIELDS.findIdx (fun f => f == GEOCHRONOLOGY_PUBLICATIONS))
          (", ".intercalate publication_strings))

def geochronology_sample_rows (publication_db : List (Int × Publication)) :
    List GeoSample → Except String (List (List String))
  | [] => .ok []
  | sample :: rest =>
    match extract_geochronology_sample_row publication_db sample with
    | .error e => .error e
    | .ok row => (geochronology_sample_rows publication_db rest).map (fun rs => row :: rs)

/-- `extract_geochronology_csv` (source lines 203-235): the header row, one
row per sample; a non-`"Depth"` analysis unit is only a stderr warning. -/
def extract_geochronology_csv (geochronolgy : Geochron)
    (publication_db : List (Int × Publication)) :
    Except String (List (List String) × List String) :=
  let warn :=
    if geochronolgy.analysisUnit ≠ "Depth" then
      ["Potentially unsupported analysis unit: " ++ geochronolgy.analysisUnit]
    else []
  match geochronology_sample_rows publication_db geochronolgy.samples with
  | .error e => .error e
  | .ok rows => .ok (GEOCHRONOLOGY_FIELDS :: rows, warn)

/-- `extract_lithology_csv` (source lines 238-246): header plus the
`LITHOLOGY_FIELDS` texts of each lithology unit. -/
def extract_lithology_csv (lithology : List (List (String × String))) :
    Except String (List (List String)) :=
  match lithology.mapM (fun unit => texts_of unit LITHOLOGY_FIELDS) with
  | .error e => .error e
  | .ok rows => .ok (LITHOLOGY_FIELDS :: rows)

/-- The body of the `for publication in publications.values()` loop of
`extract_publications_csv` (source lines 254-263). -/
def publication_row (contacts : List (Int × Contact)) (publication : Publication) :
    Except String (List String) :=
  match texts_of publication.fields PUBLICATION_FIELDS with
  | .error e => .error e
  | .ok row =>
    match resolve_refs contacts publication.authors with
    | .error e => .error e
    | .ok cs =>
      .ok (row.set (PUBLICATION_FIELDS.findIdx (fun f => f == PUBLICATION_AUTHORS))
        (", ".intercalate (cs.map get_author_string)))

def publication_rows (contacts : List (Int × Contact)) :
    List Publication → Except String (List (List String))
  | [] => .ok []
  | p :: rest =>
    match publication_row contacts p with
    | .error e => .error e
    | .ok row => (publication_rows contacts rest).map (fun rs => row :: rs)

/-- `extract_publications_csv` (source lines 249-265): one row per entry of
`publications.values()`, in the table's enumeration order. -/
def extract_publications_csv (publications : List (Int × Publication))
    (contacts : List (Int × Contact)) : Except String (List (List String)) :=
  match publication_rows contacts (publications.map Prod.snd) with
  | .error e => .error e
  | .ok rows => .ok (PUBLICATION_FIELDS :: rows)

/-! ## One document and the batch loop (source lines 268-306)

The spec declares the per-field straight-line metadata extraction of
`site.txt` and the scalar part of `collection_unit.txt` out of scope (simple
I/O plumbing); the embedded report keeps the parts with non-trivial logic:
the dense grid, the collector lines, and the three reference-resolving csv
tables.  Stderr diagnostics are collected in `log`. -/

structure TlxDoc where
  sheet : List Column
  contacts : List Contact
  publications : List Publication
  collectors : List Int
  geochron : Geochron
  lithology : List (List (String × String))
deriving DecidableEq, Repr

structure Report where
  grid : List (List CellValue)
  collector_lines : List String
  geochronology : List (List String)
  lithology : List (List String)
  publications_csv : List (List String)
  log : List String
deriving DecidableEq, Repr

/-- `translate_tlx_to_report` (source lines 268-284): the grid csv first,
then the two id-indexed tables, then the reference-resolving artifacts, in
source order; any uncaught exception aborts the document. -/
def translate_tlx_to_report (doc : TlxDoc) : Except String Report :=
  match parse_sheet doc.sheet with
  | .error e => .error e
  | .ok (grid, gridlog) =>
    let contacts := extract_tlx_to_indexed_list (fun c : Contact => c.ID) doc.contacts
    let publications := extract_tlx_to_indexed_list (fun p : Publication => p.ID) doc.publications
    match collection_unit_collector_lines contacts doc.collectors with
    | .error e => .error e
    | .ok lines =>
      match extract_geochronology_csv doc.geochron publications with
      | .error e => .error e
      | .ok (geo, geolog) =>
        match extract_lithology_csv doc.lithology with
        | .error e => .error e
        | .ok lith =>
          match extract_publications_csv publications contacts with
          | .error e => .error e
          | .ok pubs => .ok ⟨grid, lines, geo, lith, pubs, gridlog ++ geolog⟩

/-- The `for potential_tlx_file in ...` loop of `main` in report mode (source
lines 287-306): documents are processed in order with no per-document
try/except, so the first uncaught exception ends the run; the outputs of the
documents completed before it persist on disk. -/
def process_batch : List TlxDoc → List Report × Option String
  | [] => ([], none)
  | doc :: rest =>
    match translate_tlx_to_report doc with
    | .error e => ([], some e)
    | .ok r =>
      let tail := process_batch rest
      (r :: tail.1, tail.2)

/-- Keys in first-insertion order: the enumeration order of a CPython dict
built by repeated assignment. -/
def first_occurrence_keys (ids : List Int) : List Int :=
  ids.foldl (fun acc k => if k ∈ acc then acc else acc ++ [k]) []

/-! ## Concrete example inputs used by the refutations below -/

/-- A text cell. -/
def tcell (r : Int) (s : String) : Cell := ⟨r, some s, none⟩

/-- A geochronology sample field list that carries every declared field. -/
def geo_fields_stub : List (String × String) := GEOCHRONOLOGY_FIELDS.map (fun f => (f, ""))

/-- A document whose only anomaly is one geochronology sample referencing
publication id `3` while the document carries no publications. -/
def docBad : TlxDoc :=
  ⟨[], [], [], [], ⟨"Depth", [⟨geo_fields_stub, [], [3]⟩]⟩, []⟩

/-- A well-formed (empty) document. -/
def docGood : TlxDoc := ⟨[], [], [], [], ⟨"Depth", []⟩, []⟩

/-! ## Helper lemmas on fill positions and fill values -/

theorem mem_gap_positions : ∀ (n : Nat) (prev p : Int),
    p ∈ gap_positions prev n ↔ prev < p ∧ p ≤ prev + n
  | 0, prev, p => by simp [gap_positions]
  | n + 1, prev, p => by
    simp [gap_positions, mem_gap_positions n (prev + 1) p]
    omega

theorem gap_positions_add : ∀ (m n : Nat) (prev : Int),
    gap_positions prev (m + n) = gap_positions prev m ++ gap_positions (prev + m) n
  | 0, n, prev => by simp [gap_positions]
  | m + 1, n, prev => by
    rw [show m + 1 + n = (m + n) + 1 by omega]
    have h2 : prev + ((m + 1 : Nat) : Int) = (prev + 1) + (m : Int) := by push_cast; ring
    simp only [gap_positions, gap_positions_add m n (prev + 1), List.cons_append, h2]

/-- The fill-emitting loop body, characterised: one fill value per non-skipped
gap position, each given by the spec's fill policy. -/
theorem fill_loop_eq (id : Int) : ∀ (n : Nat) (prev : Int),
    fill_loop id prev n =
      ((gap_positions prev n).filter (fun p => p ∉ SKIP_TILIA_ROWS)).map (fill_policy_spec id)
  | 0, _ => rfl
  | n + 1, prev => by
    have hrec := fill_loop_eq id n (prev + 1)
    simp only [fill_loop, gap_positions, List.filter_cons]
    by_cases h : (prev + 1) ∈ SKIP_TILIA_ROWS
    · simp [h, hrec]
    · have hpol : (if TILIA_START_DATA.1 ≤ id ∧ TILIA_START_DATA.2 ≤ prev + 1 then
          [CellValue.int 0] else [CellValue.str ""]) = [fill_policy_spec id (prev + 1)] := by
        simp only [fill_policy_spec, TILIA_START_DATA]
        by_cases h2 : 8 ≤ id ∧ 3 ≤ prev + 1 <;> simp [h2]
      simp [h, hrec, hpol]

/-! ## Helper lemmas on the spec-side row builder -/

theorem row_spec_at_ok_length (id : Int) (cells : List Cell) (p : Int)
    (v : List CellValue) (l : List String) (h : row_spec_at id cells p = .ok (v, l)) :
    v.length = 1 := by
  unfold row_spec_at at h
  split at h
  · split at h
    · cases h
    · injection h with h; cases h; rfl
  · injection h with h; cases h; rfl

theorem row_spec_seg_append (id : Int) (cells : List Cell) : ∀ (ps qs : List Int),
    row_spec_seg id cells (ps ++ qs) =
      match row_spec_seg id cells ps with
      | .error e => .error e
      | .ok (v, l) =>
        match row_spec_seg id cells qs with
        | .error e => .error e
        | .ok (vs, ls) => .ok (v ++ vs, l ++ ls)
  | [], qs => by
    cases h : row_spec_seg id cells qs with
    | error e => simp [row_spec_seg, h]
    | ok t => obtain ⟨vs, ls⟩ := t; simp [row_spec_seg, h]
  | p :: ps, qs => by
    simp only [List.cons_append, row_spec_seg, List.append_eq]
    cases ha : row_spec_at id cells p with
    | error e => rfl
    | ok vl =>
      obtain ⟨v0, l0⟩ := vl
      rw [row_spec_seg_append id cells ps qs]
      cases hs : row_spec_seg id cells ps with
      | error e => rfl
      | ok t =>
        obtain ⟨v1, l1⟩ := t
        cases hq : row_spec_seg id cells qs with
        | error e => rfl
        | ok t2 => obtain ⟨v2, l2⟩ := t2; simp [List.append_assoc]

theorem row_spec_seg_nofind (id : Int) (cells : List Cell) : ∀ (ps : List Int),
    (∀ p ∈ ps, cells.find? (fun c => c.row == p) = none) →
    row_spec_seg id cells ps = .ok (ps.map (fill_policy_spec id), [])
  | [], _ => rfl
  | p :: ps, h => by
    simp only [row_spec_seg, row_spec_at, h p (by simp)]
    rw [row_spec_seg_nofind id cells ps (fun q hq => h q (by simp [hq]))]
    simp

theorem row_spec_seg_congr (id : Int) (cells1 cells2 : List Cell) : ∀ (ps : List Int),
    (∀ p ∈ ps, cells1.find? (fun c => c.row == p) = cells2.find? (fun c => c.row == p)) →
    row_spec_seg id cells1 ps = row_spec_seg id cells2 ps
  | [], _ => rfl
  | p :: ps, h => by
    simp only [row_spec_seg, row_spec_at, h p (by simp)]
    rw [row_spec_seg_congr id cells1 cells2 ps (fun q hq => h q (by simp [hq]))]

theorem row_spec_seg_ok_length (id : Int) (cells : List Cell) : ∀ (ps : List Int)
    (v : List CellValue) (l : List String),
    row_spec_seg id cells ps = .ok (v, l) → v.length = ps.length
  | [], v, l, h => by injection h with h; cases h; rfl
  | p :: ps, v, l, h => by
    simp only [row_spec_seg] at h
    cases ha : row_spec_at id cells p with
    | error e => rw [ha] at h; cases h
    | ok vl =>
      obtain ⟨v0, l0⟩ := vl
      rw [ha] at h
      cases hs : row_spec_seg id cells ps with
      | error e => rw [hs] at h; cases h
      | ok t =>
        obtain ⟨v1, l1⟩ := t
        rw [hs] at h
        injection h with h; cases h
        have := row_spec_seg_ok_length id cells ps v1 l1 hs
        have := row_spec_at_ok_length id cells p v0 l0 ha
        simp [List.length_append]
        omega

/-! ## Helper lemmas on positions, `last_row` and `calculate_col_length` -/

theorem mem_row_positions (a b p : Int) (h : p ∈ row_positions a b) :
    a < p ∧ p ≤ b ∧ p ∉ SKIP_TILIA_ROWS := by
  unfold row_positions at h
  rw [List.mem_filter] at h
  obtain ⟨h1, h2⟩ := h
  rw [mem_gap_positions] at h1
  refine ⟨h1.1, by omega, by simpa using h2⟩

theorem row_positions_split (prev mid B : Int) (h1 : prev ≤ mid) (h2 : mid ≤ B) :
    row_positions prev B = row_positions prev mid ++ row_positions mid B := by
  unfold row_positions
  rw [show (B - prev).toNat = (mid - prev).toNat + (B - mid).toNat by omega]
  rw [gap_positions_add]
  rw [show prev + (((mid - prev).toNat : Nat) : Int) = mid by omega]
  rw [List.filter_append]

theorem row_positions_last (prev m : Int) (h : prev ≤ m - 1) :
    row_positions prev m =
      row_positions prev (m - 1) ++ (if m ∈ SKIP_TILIA_ROWS then [] else [m]) := by
  rw [row_positions_split prev (m - 1) m h (by omega)]
  congr 1
  unfold row_positions
  rw [show (m - (m - 1)).toNat = 1 by omega]
  show List.filter _ [m - 1 + 1] = _
  rw [show m - 1 + 1 = m by ring]
  by_cases h2 : m ∈ SKIP_TILIA_ROWS <;> simp [h2]

theorem last_row_cons (prev : Int) (c : Cell) (rest : List Cell) :
    last_row prev (c :: rest) = last_row c.row rest := rfl

theorem last_row_ge : ∀ (cells : List Cell) (prev : Int),
    List.Pairwise (fun a b => a.row < b.row) cells →
    (∀ c ∈ cells, prev < c.row) → prev ≤ last_row prev cells
  | [], prev, _, _ => le_refl prev
  | c :: rest, prev, hpw, h => by
    rw [last_row_cons]
    rw [List.pairwise_cons] at hpw
    have h2 := last_row_ge rest c.row hpw.2 hpw.1
    have h1 : prev < c.row := h c (by simp)
    omega

theorem last_row_mem : ∀ (cells : List Cell) (prev : Int),
    last_row prev cells = prev ∨ ∃ c ∈ cells, last_row prev cells = c.row
  | [], _ => Or.inl rfl
  | c :: rest, prev => by
    rw [last_row_cons]
    rcases last_row_mem rest c.row with h | ⟨c2, hc2, he⟩
    · exact Or.inr ⟨c, by simp, h⟩
    · exact Or.inr ⟨c2, by simp [hc2], he⟩

theorem calculate_col_length_ascending : ∀ (cells : List Cell) (a : Int),
    List.Pairwise (fun x y => x.row < y.row) cells →
    (∀ c ∈ cells, a < c.row) →
    cells.foldl (fun m c => if c.row > m then c.row else m) a = last_row a cells
  | [], _, _, _ => rfl
  | c :: rest, a, hpw, h => by
    rw [List.pairwise_cons] at hpw
    have h1 : a < c.row := h c (by simp)
    show List.foldl _ (if c.row > a then c.row else a) rest = last_row c.row rest
    rw [if_pos h1]
    exact calculate_col_length_ascending rest c.row hpw.2 hpw.1

/-! ## The master characterisation of `parse_row` -/

theorem parse_row_from_cons_skip (id : Int) (c : Cell) (rest : List Cell) (prev L : Int)
    (h : c.row ∈ SKIP_TILIA_ROWS) :
    parse_row_from id (c :: rest) prev L =
      match parse_row_from id rest c.row L with
      | .error e => .error e
      | .ok (v, l) => .ok (fill_loop id prev (c.row - 1 - prev).toNat ++ v, l) := by
  simp only [parse_row_from, parse_row_cells, h, if_true]
  cases hrec : parse_row_cells id rest c.row with
  | error e => rfl
  | ok t => obtain ⟨vs, p, ls⟩ := t; simp [List.append_assoc]

theorem parse_row_from_cons_nskip (id : Int) (c : Cell) (rest : List Cell) (prev L : Int)
    (h : c.row ∉ SKIP_TILIA_ROWS) :
    parse_row_from id (c :: rest) prev L =
      match parse_cell c with
      | .error e => .error e
      | .ok (v0, l0) =>
        match parse_row_from id rest c.row L with
        | .error e => .error e
        | .ok (v, l) => .ok (fill_loop id prev (c.row - 1 - prev).toNat ++ v0 :: v, l0 ++ l) := by
  simp only [parse_row_from, parse_row_cells, h, if_false]
  cases hpc : parse_cell c with
  | error e => rfl
  | ok vl =>
    obtain ⟨v0, l0⟩ := vl
    cases hrec : parse_row_cells id rest c.row with
    | error e => rfl
    | ok t => obtain ⟨vs, p, ls⟩ := t; simp [List.append_assoc]

/-- Master characterisation: on a strictly ascending column, `parse_row`
starting from `previous_column = prev` produces exactly the spec-side value
for each non-skipped position of `(prev, max first_col_length lastRow]` —
present cells resolved, gaps (interior and trailing) filled by the policy. -/
theorem parse_row_from_spec (id L : Int) : ∀ (cells : List Cell) (prev : Int),
    List.Pairwise (fun a b => a.row < b.row) cells →
    (∀ c ∈ cells, prev < c.row) →
    parse_row_from id cells prev L =
      row_spec_seg id cells (row_positions prev (max L (last_row prev cells)))
  | [], prev, _, _ => by
    have hfind : ∀ p ∈ row_positions prev (max L prev),
        List.find? (fun c => c.row == p) ([] : List Cell) = none := by
      intro p _; rfl
    rw [show last_row prev ([] : List Cell) = prev from rfl]
    rw [row_spec_seg_nofind id [] _ hfind]
    show Except.ok ([] ++ fill_loop id prev (L - prev).toNat, []) = _
    rw [fill_loop_eq]
    unfold row_positions
    rw [show (max L prev - prev).toNat = (L - prev).toNat by omega]
    simp
  | c :: rest, prev, hpw, hgt => by
    rw [List.pairwise_cons] at hpw
    obtain ⟨hc, hpw2⟩ := hpw
    have hgtc : prev < c.row := hgt c (by simp)
    have hlast : last_row prev (c :: rest) = last_row c.row rest := rfl
    have hcB : c.row ≤ max L (last_row c.row rest) :=
      le_trans (last_row_ge rest c.row hpw2 hc) (le_max_right _ _)
    have hsplit : row_positions prev (max L (last_row prev (c :: rest))) =
        row_positions prev (c.row - 1) ++
          ((if c.row ∈ SKIP_TILIA_ROWS then [] else [c.row]) ++
            row_positions c.row (max L (last_row c.row rest))) := by
      rw [hlast, row_positions_split prev c.row _ (le_of_lt hgtc) hcB,
        row_positions_last prev c.row (by omega), List.append_assoc]
    -- the leading gap segment: no cell sits at a position below c.row
    have hseg1 : row_spec_seg id (c :: rest) (row_positions prev (c.row - 1)) =
        .ok ((row_positions prev (c.row - 1)).map (fill_policy_spec id), []) := by
      apply row_spec_seg_nofind
      intro p hp
      obtain ⟨_, hple, _⟩ := mem_row_positions prev (c.row - 1) p hp
      apply List.find?_eq_none.mpr
      intro x hx
      simp only [List.mem_cons] at hx
      rcases hx with rfl | hx
      · simp; omega
      · have := hc x hx; simp; omega
    have hfill : (row_positions prev (c.row - 1)).map (fill_policy_spec id) =
        fill_loop id prev (c.row - 1 - prev).toNat := by
      rw [fill_loop_eq]; rfl
    -- the tail segment agrees with the tail column
    have hseg3 : row_spec_seg id (c :: rest) (row_positions c.row (max L (last_row c.row rest))) =
        row_spec_seg id rest (row_positions c.row (max L (last_row c.row rest))) := by
      apply row_spec_seg_congr
      intro p hp
      obtain ⟨hgt2, _, _⟩ := mem_row_positions _ _ p hp
      show List.find? _ (c :: rest) = _
      rw [List.find?_cons_of_neg]
      simp; omega
    have hrec := parse_row_from_spec id L rest c.row hpw2 hc
    by_cases hskip : c.row ∈ SKIP_TILIA_ROWS
    · rw [parse_row_from_cons_skip id c rest prev L hskip, hsplit,
        row_spec_seg_append, hseg1, if_pos hskip]
      simp only [List.nil_append]
      rw [hseg3, ← hrec]
      cases hr : parse_row_from id rest c.row L with
      | error e => rfl
      | ok t => obtain ⟨v, l⟩ := t; rw [hfill]
    · rw [parse_row_from_cons_nskip id c rest prev L hskip, hsplit,
        row_spec_seg_append, hseg1, if_neg hskip]
      rw [row_spec_seg_append, hseg3, ← hrec]
      have hone : row_spec_seg id (c :: rest) [c.row] =
          match parse_cell c with
          | .error e => .error e
          | .ok (v0, l0) => .ok ([v0], l0) := by
        have hf : List.find? (fun x => x.row == c.row) (c :: rest) = some c :=
          List.find?_cons_of_pos _ (by simp)
        simp only [row_spec_seg, row_spec_at, hf]
        cases hpc : parse_cell c with
        | error e => rfl
        | ok vl => obtain ⟨v0, l0⟩ := vl; simp
      rw [hone]
      cases hpc : parse_cell c with
      | error e => rfl
      | ok vl =>
        obtain ⟨v0, l0⟩ := vl
        cases hr : parse_row_from id rest c.row L with
        | error e => rfl
        | ok t => obtain ⟨v, l⟩ := t; rw [hfill]; simp

/-! ## Sheet-level lemmas -/

theorem parse_sheet_aux_some (L : Int) : ∀ (data : List Column) (p : Int),
    parse_sheet_aux (some L) p data = sheet_rows_spec L data
  | [], _ => rfl
  | col :: rest, p => by
    simp only [parse_sheet_aux, sheet_rows_spec, Option.getD]
    by_cases h : col.ID ∈ SKIP_TILIA_COLUMNS
    · simp only [h, if_true]
      exact parse_sheet_aux_some L rest col.ID
    · simp only [h, if_false]
      cases hr : parse_row col.cells col.ID L with
      | error e => rfl
      | ok t => obtain ⟨row, l⟩ := t; rw [parse_sheet_aux_some L rest col.ID]

theorem parse_sheet_cons (c0 : Column) (rest : List Column) :
    parse_sheet (c0 :: rest) = sheet_rows_spec (calculate_col_length c0.cells) (c0 :: rest) := by
  show parse_sheet_aux none 0 (c0 :: rest) = _
  simp only [parse_sheet_aux, sheet_rows_spec, Option.getD]
  by_cases h : c0.ID ∈ SKIP_TILIA_COLUMNS
  · simp only [h, if_true]
    exact parse_sheet_aux_some _ rest c0.ID
  · simp only [h, if_false]
    cases hr : parse_row c0.cells c0.ID (calculate_col_length c0.cells) with
    | error e => rfl
    | ok t => obtain ⟨row, l⟩ := t; rw [parse_sheet_aux_some]

/-! ## Claim C1 -/

/-- C1: confirmed.  `fill_loop` is the gap-fill emitter of `parse_row`: by
definition of `parse_row_cells` it produces every interior-gap fill, and by
definition of `parse_row_from` it produces the trailing fill up to the
canonical width.  Its output is exactly one value per non-skipped gap
position `p`, namely `fill_policy_spec csv_row_id p`: the integer `0` when
the owning output row's declared position is at least the data-start row
threshold `8` and `p` is at least the data-start column threshold `3`, and
the empty string in every other case.  The second conjunct exhibits the
trailing fill of `parse_row` up to the canonical width under the same
policy. -/
theorem C1_gap_fill_policy (csv_row_id prev : Int) (fuel : Nat) :
    fill_loop csv_row_id prev fuel =
      ((gap_positions prev fuel).filter (fun p => p ∉ SKIP_TILIA_ROWS)).map
        (fill_policy_spec csv_row_id) ∧
    ∀ L : Int, parse_row [] csv_row_id L =
      .ok ((row_positions 0 L).map (fill_policy_spec csv_row_id), []) := by
  refine ⟨fill_loop_eq csv_row_id fuel prev, fun L => ?_⟩
  show Except.ok ([] ++ fill_loop csv_row_id 0 (L - 0).toNat, []) = _
  rw [fill_loop_eq]
  rfl

/-! ## Claim C2 -/

/-- C2: counterexample.  The first visited column (ID `2`, one cell at row
position `1`) sets the canonical row width `1`, yet the later column
(ID `7`, cells at row positions `1` and `3`) emits a row of length `2`: a
later column with more row positions is not truncated to the canonical
width, so not every emitted dense row has that width. -/
theorem C2_counterexample :
    calculate_col_length [tcell 1 "a"] = 1 ∧
    parse_sheet [⟨2, [tcell 1 "a"]⟩, ⟨7, [tcell 1 "x", tcell 3 "y"]⟩] =
      .ok ([[CellValue.str "a"], [CellValue.str "x", CellValue.str "y"]], []) ∧
    ([CellValue.str "x", CellValue.str "y"] : List CellValue).length ≠ 1 :=
  ⟨rfl, rfl, by decide⟩

/-- C2 (amended): the canonical width is the first visited column's maximum
row position over all its cells (`calculate_col_length`, with no
skip-filtering), and it is handed to `parse_row` for every column of the
sheet; an emitted row of a strictly ascending column has exactly one value
per non-skipped position from `1` up to the larger of the canonical width
and the column's own maximum row position — a shorter later column is padded
up to the canonical width, while a column with more row positions emits a
longer row (it is not truncated). -/
theorem C2_canonical_width (c0 : Column) (rest : List Column)
    (cells : List Cell) (id L : Int) (v : List CellValue) (l : List String)
    (hasc : List.Pairwise (fun a b => a.row < b.row) cells)
    (hpos : ∀ c ∈ cells, 0 < c.row) (hL : 1 ≤ L)
    (hok : parse_row cells id L = .ok (v, l)) :
    parse_sheet (c0 :: rest) = sheet_rows_spec (calculate_col_length c0.cells) (c0 :: rest) ∧
    v.length = (row_positions 0 (max L (calculate_col_length cells))).length := by
  refine ⟨parse_sheet_cons c0 rest, ?_⟩
  have hm := parse_row_from_spec id L cells 0 hasc hpos
  unfold parse_row at hok
  rw [hm] at hok
  have hlen := row_spec_seg_ok_length id cells _ v l hok
  rw [hlen]
  congr 2
  cases cells with
  | nil =>
    show max L (last_row 0 []) = max L (calculate_col_length [])
    show max L 0 = max L (-1)
    omega
  | cons c cs =>
    unfold calculate_col_length
    rw [calculate_col_length_ascending (c :: cs) (-1) hasc
      (fun x hx => by have := hpos x hx; omega)]
    rfl

theorem C2_canonical_width_witness :
    parse_sheet [⟨2, [tcell 1 "w"]⟩] =
      sheet_rows_spec (calculate_col_length [tcell 1 "w"]) [⟨2, [tcell 1 "w"]⟩] ∧
    ([CellValue.str "x", CellValue.str ""] : List CellValue).length =
      (row_positions 0 (max 3 (calculate_col_length [tcell 1 "x"]))).length :=
  C2_canonical_width ⟨2, [tcell 1 "w"]⟩ [] [tcell 1 "x"] 7 3
    [CellValue.str "x", CellValue.str ""] []
    (by decide) (by decide) (by decide) (by decide)

/-! ## Claim C3 -/

/-- With the hardcoded skip-sets (`SKIP_TILIA_ROWS = [2]`), a column whose
row positions are contiguous from `1` and avoid the row skip-set is exactly
one cell at position `1`. -/
theorem contig_noskip_single (cells : List Cell) (hne : cells ≠ [])
    (hcontig : ∀ (i : Nat) (h : i < cells.length), (cells.get ⟨i, h⟩).row = (i : Int) + 1)
    (hskip : ∀ c ∈ cells, c.row ∉ SKIP_TILIA_ROWS) :
    ∃ c : Cell, cells = [c] ∧ c.row = 1 := by
  cases cells with
  | nil => exact absurd rfl hne
  | cons c cs =>
    cases cs with
    | nil =>
      refine ⟨c, rfl, ?_⟩
      simpa using hcontig 0 (by simp)
    | cons c2 cs2 =>
      exfalso
      have h2 := hcontig 1 (by simp)
      simp at h2
      have := hskip c2 (by simp)
      rw [h2] at this
      exact this (by decide)

theorem parse_row_single (c : Cell) (id : Int) (h : c.row = 1) :
    parse_row [c] id 1 = transcribe_column [c] := by
  unfold parse_row parse_row_from parse_row_cells transcribe_column
  rw [h]
  norm_num [SKIP_TILIA_ROWS]
  cases hpc : parse_cell c with
  | error e => simp [hpc]
  | ok vl =>
    obtain ⟨v, l⟩ := vl
    simp [hpc, parse_row_cells, fill_loop, transcribe_column]

theorem sheet_rows_spec_one : ∀ (data : List Column),
    (∀ col ∈ data, col.ID ∉ SKIP_TILIA_COLUMNS) →
    (∀ col ∈ data, ∃ c : Cell, col.cells = [c] ∧ c.row = 1) →
    sheet_rows_spec 1 data = spec_dense_transcription data
  | [], _, _ => rfl
  | col :: rest, hid, hsingle => by
    obtain ⟨c, hc, hr⟩ := hsingle col (by simp)
    simp only [sheet_rows_spec, spec_dense_transcription, hid col (by simp), if_false, hc]
    rw [parse_row_single c col.ID hr]
    rw [sheet_rows_spec_one rest (fun x hx => hid x (by simp [hx]))
      (fun x hx => hsingle x (by simp [hx]))]

/-- C3: confirmed.  On a sparse sheet in which every column's row positions
are contiguous starting at `1`, no column position lies in
`SKIP_TILIA_COLUMNS` and no row position lies in `SKIP_TILIA_ROWS`, the
reconstructed grid (`parse_sheet`) equals the direct dense transcription of
the input cells, each resolved by `parse_cell`, in declared order. -/
theorem C3_no_gap_no_skip_transcription (data : List Column)
    (hid : ∀ col ∈ data, col.ID ∉ SKIP_TILIA_COLUMNS)
    (hne : ∀ col ∈ data, col.cells ≠ [])
    (hcontig : ∀ col ∈ data, ∀ (i : Nat) (h : i < col.cells.length),
      (col.cells.get ⟨i, h⟩).row = (i : Int) + 1)
    (hskip : ∀ col ∈ data, ∀ c ∈ col.cells, c.row ∉ SKIP_TILIA_ROWS) :
    parse_sheet data = spec_dense_transcription data := by
  have hsingle : ∀ col ∈ data, ∃ c : Cell, col.cells = [c] ∧ c.row = 1 := fun col hcol =>
    contig_noskip_single col.cells (hne col hcol) (hcontig col hcol) (hskip col hcol)
  cases data with
  | nil => rfl
  | cons c0 rest =>
    rw [parse_sheet_cons c0 rest]
    obtain ⟨c, hc, hr⟩ := hsingle c0 (by simp)
    have hcalc : calculate_col_length c0.cells = 1 := by
      rw [hc]
      show (if c.row > -1 then c.row else -1) = 1
      rw [hr]
      norm_num
    rw [hcalc]
    exact sheet_rows_spec_one (c0 :: rest) hid hsingle

theorem C3_no_gap_no_skip_transcription_witness :
    parse_sheet [⟨2, [tcell 1 "x"]⟩, ⟨7, [⟨1, none, some "12.0"⟩]⟩] =
      spec_dense_transcription [⟨2, [tcell 1 "x"]⟩, ⟨7, [⟨1, none, some "12.0"⟩]⟩] :=
  C3_no_gap_no_skip_transcription [⟨2, [tcell 1 "x"]⟩, ⟨7, [⟨1, none, some "12.0"⟩]⟩]
    (by decide) (by decide) (by decide) (by decide)

/-! ## Claim C4 -/

theorem last_row_append_single (a : Int) (xs : List Cell) (c : Cell) :
    last_row a (xs ++ [c]) = c.row := by
  unfold last_row
  rw [List.foldl_append]
  rfl

theorem find?_filter_nskip : ∀ (cells : List Cell) (p : Int), p ∉ SKIP_TILIA_ROWS →
    (cells.filter (fun c => c.row ∉ SKIP_TILIA_ROWS)).find? (fun c => c.row == p) =
      cells.find? (fun c => c.row == p)
  | [], _, _ => rfl
  | c :: rest, p, hp => by
    by_cases hc : c.row ∈ SKIP_TILIA_ROWS
    · have hne : c.row ≠ p := fun he => hp (he ▸ hc)
      rw [List.filter_cons, if_neg (by simp [hc])]
      rw [List.find?_cons_of_neg _ (by simp [hne])]
      exact find?_filter_nskip rest p hp
    · rw [List.filter_cons, if_pos (by simp [hc])]
      by_cases he : c.row = p
      · rw [List.find?_cons_of_pos _ (by simp [he]), List.find?_cons_of_pos _ (by simp [he])]
      · rw [List.find?_cons_of_neg _ (by simp [he]), List.find?_cons_of_neg _ (by simp [he])]
        exact find?_filter_nskip rest p hp

/-- Dropping the cells at skipped row positions moves the final value of
`previous_column` by at most the skipped position itself: either it is
unchanged, or the last cell sat at the (unique) skipped position `2` and the
filtered column ends at or below `1`. -/
theorem last_row_filter (cells : List Cell) (a : Int)
    (hpw : List.Pairwise (fun x y => x.row < y.row) cells)
    (hgt : ∀ c ∈ cells, a < c.row) (ha : 0 ≤ a) :
    last_row a (cells.filter (fun c => c.row ∉ SKIP_TILIA_ROWS)) = last_row a cells ∨
    (last_row a cells = 2 ∧
      0 ≤ last_row a (cells.filter (fun c => c.row ∉ SKIP_TILIA_ROWS)) ∧
      last_row a (cells.filter (fun c => c.row ∉ SKIP_TILIA_ROWS)) ≤ 1) := by
  rcases List.eq_nil_or_concat cells with rfl | ⟨xs, c, rfl⟩
  · exact Or.inl rfl
  · rw [List.concat_eq_append] at *
    rw [List.filter_append, last_row_append_single]
    by_cases hc : c.row ∈ SKIP_TILIA_ROWS
    · have hc2 : c.row = 2 := by simpa [SKIP_TILIA_ROWS] using hc
      have hxslt : ∀ x ∈ xs, x.row < 2 := by
        intro x hx
        have := (List.pairwise_append.mp hpw).2.2 x hx c (by simp)
        omega
      have ha2 : a < 2 := by
        have := hgt c (by simp)
        omega
      refine Or.inr ⟨hc2, ?_⟩
      have hfe : List.filter (fun c => decide (c.row ∉ SKIP_TILIA_ROWS)) [c] = [] := by
        simp [hc]
      rw [hfe, List.append_nil]
      rcases last_row_mem (xs.filter (fun c => c.row ∉ SKIP_TILIA_ROWS)) a with he | ⟨x, hx, he⟩
      · rw [he]; omega
      · have hxmem := List.mem_of_mem_filter hx
        have h1 := hxslt x hxmem
        have h2 := hgt x (by simp [hxmem])
        rw [he]; omega
    · have hfe : List.filter (fun c => decide (c.row ∉ SKIP_TILIA_ROWS)) [c] = [c] := by
        simp [hc]
      rw [hfe, last_row_append_single]
      exact Or.inl rfl

/-- C4: counterexample.  The first sheet's leading column has the skipped
column position `1`, so it emits no row — yet it still determines the
canonical row width (`3`), so the following non-skipped column (ID `2`) is
padded to it.  Removing the skipped column changes that later column's
emitted values from `["x", ""]` to `["x"]`: skipping can change the values
occupying the positions of subsequent non-skipped elements. -/
theorem C4_counterexample :
    parse_sheet [⟨1, [tcell 1 "a", tcell 2 "b", tcell 3 "c"]⟩, ⟨2, [tcell 1 "x"]⟩] =
      .ok ([[CellValue.str "x", CellValue.str ""]], []) ∧
    parse_sheet [⟨2, [tcell 1 "x"]⟩] = .ok ([[CellValue.str "x"]], []) ∧
    ([[CellValue.str "x", CellValue.str ""]] : List (List CellValue)) ≠ [[CellValue.str "x"]] :=
  ⟨rfl, rfl, by decide⟩

theorem sheet_rows_spec_filter (L : Int) : ∀ (data : List Column),
    sheet_rows_spec L (data.filter (fun col => col.ID ∉ SKIP_TILIA_COLUMNS)) =
      sheet_rows_spec L data
  | [] => rfl
  | col :: rest => by
    by_cases h : col.ID ∈ SKIP_TILIA_COLUMNS
    · rw [List.filter_cons, if_neg (by simp [h])]
      rw [sheet_rows_spec_filter L rest]
      show _ = sheet_rows_spec L (col :: rest)
      simp [sheet_rows_spec, h]
    · rw [List.filter_cons, if_pos (by simp [h])]
      simp only [sheet_rows_spec]
      rw [if_neg h, if_neg h]
      cases hr : parse_row col.cells col.ID L with
      | error e => rfl
      | ok t =>
        obtain ⟨row, l⟩ := t
        rw [sheet_rows_spec_filter L rest]

/-- C4 (amended): values at skipped positions never appear and position
bookkeeping advances over them, in this sense: (a) within a column (strictly
ascending, positive positions, canonical width at least `1`), removing the
cells whose row positions are skipped leaves the emitted row unchanged — the
skipped cells contribute no value and no spurious gap fill; (b) once the
canonical width is fixed (i.e. after the first visited column), removing the
columns whose declared positions are skipped leaves the emitted sheet
unchanged, whatever the `previous_row` counters.  The exception forced by
the counterexample remains: the sheet's first visited column fixes the
canonical width even when its own column position is skipped. -/
theorem C4_skip_invariance (cells : List Cell) (id L : Int) (data : List Column) (p q : Int)
    (hasc : List.Pairwise (fun a b => a.row < b.row) cells)
    (hpos : ∀ c ∈ cells, 0 < c.row) (hL : 1 ≤ L) :
    parse_row (cells.filter (fun c => c.row ∉ SKIP_TILIA_ROWS)) id L = parse_row cells id L ∧
    parse_sheet_aux (some L) p (data.filter (fun col => col.ID ∉ SKIP_TILIA_COLUMNS)) =
      parse_sheet_aux (some L) q data := by
  constructor
  · have hsub := List.filter_sublist (p := fun c => decide (c.row ∉ SKIP_TILIA_ROWS)) cells
    have hpw2 := hasc.sublist hsub
    have hpos2 : ∀ c ∈ cells.filter (fun c => c.row ∉ SKIP_TILIA_ROWS), 0 < c.row :=
      fun c hc => hpos c (List.mem_of_mem_filter hc)
    unfold parse_row
    rw [parse_row_from_spec id L cells 0 hasc hpos,
      parse_row_from_spec id L _ 0 hpw2 hpos2]
    have hposeq : row_positions 0 (max L (last_row 0 (cells.filter
        (fun c => c.row ∉ SKIP_TILIA_ROWS)))) =
        row_positions 0 (max L (last_row 0 cells)) := by
      rcases last_row_filter cells 0 hasc hpos (le_refl 0) with he | ⟨h2, hlo, hhi⟩
      · rw [he]
      · rw [h2]
        have hb2 : max L (last_row 0 (cells.filter (fun c => c.row ∉ SKIP_TILIA_ROWS))) = L := by
          omega
        rw [hb2]
        by_cases h2L : 2 ≤ L
        · rw [show max L 2 = L by omega]
        · rw [show L = 1 by omega, show max (1 : Int) 2 = 2 by omega]
          decide
    rw [hposeq]
    apply row_spec_seg_congr
    intro r hr
    obtain ⟨_, _, hnskip⟩ := mem_row_positions _ _ r hr
    exact find?_filter_nskip cells r hnskip
  · rw [parse_sheet_aux_some, parse_sheet_aux_some]
    exact sheet_rows_spec_filter L data

theorem C4_skip_invariance_witness :
    parse_row ([tcell 1 "x", tcell 2 "b"].filter (fun c => c.row ∉ SKIP_TILIA_ROWS)) 7 3 =
      parse_row [tcell 1 "x", tcell 2 "b"] 7 3 ∧
    parse_sheet_aux (some 3) 0
        ([⟨1, [tcell 1 "a"]⟩, ⟨7, [tcell 1 "z"]⟩].filter
          (fun col => col.ID ∉ SKIP_TILIA_COLUMNS)) =
      parse_sheet_aux (some 3) 1 [⟨1, [tcell 1 "a"]⟩, ⟨7, [tcell 1 "z"]⟩] :=
  C4_skip_invariance [tcell 1 "x", tcell 2 "b"] 7 3
    [⟨1, [tcell 1 "a"]⟩, ⟨7, [tcell 1 "z"]⟩] 0 1
    (by decide) (by decide) (by decide)

/-! ## Claims C5, C6, C10: the cell-value resolver -/

/-- C5: counterexample.  A cell at the non-skipped row position `1` of the
non-skipped column `7` carries the unparseable numeric payload `"abc"`: the
cell-value resolver raises instead of reporting-and-continuing, so the
enclosing row never completes (with a null or otherwise) and the sheet
translation aborts with the error — nothing is emitted. -/
theorem C5_counterexample :
    parse_cell ⟨1, none, some "abc"⟩ = .error "could not convert string to float: abc" ∧
    parse_sheet [⟨7, [⟨1, none, some "abc"⟩]⟩] =
      .error "could not convert string to float: abc" :=
  ⟨rfl, rfl⟩

/-- C5 (amended): a numeric payload that cannot be parsed as a float raises
`ValueError` out of the cell-value resolver (there is no try/except), and the
error propagates through the row assembly: the enclosing row does not
complete with a null in that position — the document's grid translation
aborts.  Only a cell with neither payload is reported on the diagnostic
channel and resolves to null with processing continuing. -/
theorem C5_unparseable_payload_aborts (r : Int) (s : String) (rest : List Cell) (id L : Int)
    (h : parse_float s = none) :
    parse_cell ⟨r, none, some s⟩ = .error ("could not convert string to float: " ++ s) ∧
    parse_row (⟨1, none, some s⟩ :: rest) id L =
      .error ("could not convert string to float: " ++ s) := by
  have h1 : ∀ r0 : Int, parse_cell ⟨r0, none, some s⟩ =
      .error ("could not convert string to float: " ++ s) := by
    intro r0
    unfold parse_cell
    simp [h]
  refine ⟨h1 r, ?_⟩
  unfold parse_row parse_row_from parse_row_cells
  norm_num [SKIP_TILIA_ROWS, h1 1]

theorem C5_unparseable_payload_aborts_witness :
    parse_cell ⟨1, none, some "abc"⟩ = .error ("could not convert string to float: " ++ "abc") ∧
    parse_row [⟨1, none, some "abc"⟩] 7 1 =
      .error ("could not convert string to float: " ++ "abc") :=
  C5_unparseable_payload_aborts 1 "abc" [] 7 1 (by decide)

/-- C6: confirmed.  A text payload is returned verbatim as a string (whatever
the numeric payload, even a numeric-looking text); a parseable numeric
payload is parsed as a float and returned as an integer exactly when it has
no fractional part (denominator `1`), otherwise as a float; a cell with
neither payload is reported as the `"Unknown Cell"` warning and resolves to
null without raising. -/
theorem C6_cell_resolution (r : Int) (t s : String) (v : Option String) (q : Rat) :
    parse_cell ⟨r, some t, v⟩ = .ok (.str t, []) ∧
    (parse_float s = some q →
      parse_cell ⟨r, none, some s⟩ =
        .ok (if q.den = 1 then .int q.num else .float q, [])) ∧
    parse_cell ⟨r, none, none⟩ = .ok (.null, ["Unknown Cell"]) := by
  refine ⟨rfl, fun h => ?_, rfl⟩
  unfold parse_cell
  simp only [h]
  by_cases hd : q.den = 1 <;> simp [hd]

theorem C6_cell_resolution_witness :
    parse_cell ⟨1, some "foo", some "12.5"⟩ = .ok (.str "foo", []) ∧
    parse_cell ⟨1, none, some "12.0"⟩ = .ok (.int 12, []) ∧
    parse_cell ⟨1, none, some "12.5"⟩ = .ok (.float (Rat.divInt 25 2), []) ∧
    parse_cell ⟨1, none, none⟩ = .ok (.null, ["Unknown Cell"]) := by
  have h1 := C6_cell_resolution 1 "foo" "12.5" (some "12.5") 12
  refine ⟨h1.1, ?_, ?_, h1.2.2⟩
  · have h2 := (C6_cell_resolution 1 "foo" "12.0" (some "12.5") 12).2.1 (by decide)
    rw [h2, if_pos (by decide)]
    norm_num
  · have h3 := (C6_cell_resolution 1 "x" "12.5" none (Rat.divInt 25 2)).2.1 (by decide)
    rw [h3, if_neg (by decide)]

/-- C10: confirmed.  A cell carrying both a text payload and a numeric
payload resolves to the text payload verbatim, with no diagnostic and no
error: the numeric payload is never parsed, so no numeric parse failure can
arise from such a cell (the equation holds for every `s`, including
unparseable ones). -/
theorem C10_text_precedence (r : Int) (t s : String) :
    parse_cell ⟨r, some t, some s⟩ = .ok (.str t, []) := rfl

/-! ## Claim C7 -/

theorem resolve_refs_unresolved {α : Type} (db : List (Int × α)) : ∀ (pids : List Int)
    (pid : Int), pid ∈ pids → dict_get? db pid = none →
    ∃ err, resolve_refs db pids = .error err
  | [], pid, h, _ => absurd h (List.not_mem_nil pid)
  | p :: rest, pid, h, hn => by
    unfold resolve_refs
    cases hd : dict_get? db p with
    | none => exact ⟨_, rfl⟩
    | some v =>
      have hne : pid ≠ p := fun he => by rw [he, hd] at hn; cases hn
      have hmem : pid ∈ rest := by
        rcases List.mem_cons.mp h with he | hm
        · exact absurd he hne
        · exact hm
      obtain ⟨err, herr⟩ := resolve_refs_unresolved db rest pid hmem hn
      rw [herr]
      exact ⟨err, rfl⟩

/-- C7: counterexample.  `docBad`'s only anomaly is a geochronology sample
referencing the unresolved publication id `3`; its report generation is
fatal, as the claim says — but processing a batch in which the well-formed
`docGood` comes after `docBad` stops at the `KeyError` with no per-document
isolation: `docGood` is never processed, refuting "the other documents of
the same batch are still processed unaffected". -/
theorem C7_counterexample :
    extract_geochronology_csv docBad.geochron
        (extract_tlx_to_indexed_list (fun p : Publication => p.ID) docBad.publications) =
      .error "KeyError: 3" ∧
    translate_tlx_to_report docBad = .error "KeyError: 3" ∧
    (translate_tlx_to_report docGood).isOk = true ∧
    process_batch [docBad, docGood] = ([], some "KeyError: 3") :=
  ⟨rfl, rfl, rfl, rfl⟩

/-- C7 (amended): a foreign-key id that does not resolve in the
document-scoped table raises `KeyError` (first conjunct), which makes the
enclosing sample row — and hence the document's report generation — fail
(second conjunct).  Since the batch loop of `main` has no per-document
try/except, the failure ends the batch: no document after the failing one is
processed (third conjunct), while documents completed before it keep their
outputs (fourth conjunct). -/
theorem C7_unresolved_ref_fatal {α : Type} (db : List (Int × α)) (pids : List Int) (pid : Int)
    (pubdb : List (Int × Publication)) (sample : GeoSample) (row : List String)
    (d d0 : TlxDoc) (e : String) (r : Report) (rest post : List TlxDoc) :
    (pid ∈ pids → dict_get? db pid = none → ∃ err, resolve_refs db pids = .error err) ∧
    (pid ∈ sample.publications → dict_get? pubdb pid = none →
      texts_of sample.fields GEOCHRONOLOGY_FIELDS = .ok row →
      ∃ err, extract_geochronology_sample_row pubdb sample = .error err) ∧
    (translate_tlx_to_report d = .error e → process_batch (d :: post) = ([], some e)) ∧
    (translate_tlx_to_report d0 = .ok r →
      process_batch (d0 :: rest) = (r :: (process_batch rest).1, (process_batch rest).2)) := by
  refine ⟨resolve_refs_unresolved db pids pid, fun hm hn htexts => ?_, fun h => ?_, fun h => ?_⟩
  · unfold extract_geochronology_sample_row
    rw [htexts]
    obtain ⟨err, herr⟩ := resolve_refs_unresolved pubdb sample.publications pid hm hn
    rw [herr]
    exact ⟨err, rfl⟩
  · simp [process_batch, h]
  · simp [process_batch, h]

theorem C7_unresolved_ref_fatal_witness :
    (∃ err, resolve_refs ([] : List (Int × Publication)) [3] = .error err) ∧
    (∃ err, extract_geochronology_sample_row [] ⟨geo_fields_stub, [], [3]⟩ = .error err) ∧
    process_batch [docBad, docGood] = ([], some "KeyError: 3") ∧
    process_batch [docGood] =
      (⟨[], [], [GEOCHRONOLOGY_FIELDS], [LITHOLOGY_FIELDS], [PUBLICATION_FIELDS], []⟩ ::
        (process_batch []).1, (process_batch []).2) := by
  have h := C7_unresolved_ref_fatal ([] : List (Int × Publication)) [3] 3 []
    ⟨geo_fields_stub, [], [3]⟩ (List.replicate 15 "") docBad docGood "KeyError: 3"
    ⟨[], [], [GEOCHRONOLOGY_FIELDS], [LITHOLOGY_FIELDS], [PUBLICATION_FIELDS], []⟩ [] [docGood]
  exact ⟨h.1 (by decide) rfl, h.2.1 (by decide) rfl rfl, h.2.2.1 rfl, h.2.2.2 rfl⟩

/-! ## Claim C8 -/

theorem dict_get_cons {α : Type} (k0 : Int) (v0 : α) (rest : List (Int × α)) (k2 : Int) :
    dict_get? ((k0, v0) :: rest) k2 = if k0 = k2 then some v0 else dict_get? rest k2 := by
  unfold dict_get?
  by_cases h : k0 = k2
  · rw [List.find?_cons_of_pos _ (by simp [h]), if_pos h]
    rfl
  · rw [List.find?_cons_of_neg _ (by simp [h]), if_neg h]

theorem dict_get_insert {α : Type} : ∀ (d : List (Int × α)) (k k2 : Int) (v : α),
    dict_get? (dict_insert d k v) k2 = if k2 = k then some v else dict_get? d k2
  | [], k, k2, v => by
    show dict_get? [(k, v)] k2 = _
    rw [dict_get_cons]
    by_cases h : k2 = k
    · rw [if_pos h.symm, if_pos h]
    · rw [if_neg (fun he => h he.symm), if_neg h]
  | (k0, v0) :: rest, k, k2, v => by
    unfold dict_insert
    by_cases h0 : k0 = k
    · subst h0
      rw [if_pos rfl, dict_get_cons]
      by_cases h : k0 = k2
      · rw [if_pos h, if_pos h.symm]
      · rw [if_neg h, if_neg (fun he => h he.symm), dict_get_cons, if_neg h]
    · rw [if_neg h0, dict_get_cons, dict_get_insert rest k k2 v, dict_get_cons]
      by_cases h2 : k0 = k2 <;> by_cases hk : k2 = k
      · exact absurd (h2.trans hk) h0
      · rw [if_pos h2, if_neg hk, if_pos h2]
      · rw [if_neg h2, if_pos hk, if_pos hk]
      · rw [if_neg h2, if_neg hk, if_neg hk, if_neg h2]

theorem find?_or_append {α : Type} (p : α → Bool) : ∀ (l1 l2 : List α),
    (l1 ++ l2).find? p = ((l1.find? p).or (l2.find? p))
  | [], l2 => by simp [Option.or]
  | a :: l1, l2 => by
    by_cases h : p a
    · rw [List.cons_append, List.find?_cons_of_pos _ h, List.find?_cons_of_pos _ h]
      rfl
    · rw [List.cons_append, List.find?_cons_of_neg _ (by simp [h]),
        List.find?_cons_of_neg _ (by simp [h])]
      exact find?_or_append p l1 l2

theorem extract_get_aux {α : Type} (getID : α → Int) (k : Int) : ∀ (es : List α)
    (d : List (Int × α)),
    dict_get? (es.foldl (fun r e => dict_insert r (getID e) e) d) k =
      ((es.reverse.find? (fun e => getID e == k)).or (dict_get? d k))
  | [], d => by simp [Option.or]
  | e :: tl, d => by
    show dict_get? (tl.foldl _ (dict_insert d (getID e) e)) k = _
    rw [extract_get_aux getID k tl (dict_insert d (getID e) e), dict_get_insert,
      List.reverse_cons, find?_or_append]
    by_cases h : k = getID e
    · rw [if_pos h]
      have he : List.find? (fun e => getID e == k) [e] = some e := by
        rw [List.find?_cons_of_pos _ (by simp [h])]
      rw [he]
      cases tl.reverse.find? (fun e => getID e == k) <;> rfl
    · rw [if_neg h]
      have he : List.find? (fun e => getID e == k) [e] = none := by
        rw [List.find?_cons_of_neg _ (by simpa using fun hx => h hx.symm)]
        rfl
      rw [he]
      cases tl.reverse.find? (fun e => getID e == k) <;> rfl

/-- C8: confirmed.  The entity indexer over CPython dict semantics is
last-wins, deterministically, for every input collection: looking up any id
in the table built by `extract_tlx_to_indexed_list` yields exactly the last
record of the collection (in document order) bearing that id — so in
particular, when two or more records share an id, the id is bound to the
last of them. -/
theorem C8_last_wins {α : Type} (getID : α → Int) (entries : List α) (k : Int) :
    dict_get? (extract_tlx_to_indexed_list getID entries) k =
      entries.reverse.find? (fun e => getID e == k) := by
  unfold extract_tlx_to_indexed_list
  rw [extract_get_aux getID k entries []]
  cases entries.reverse.find? (fun e => getID e == k) <;> rfl

/-! ## Claim C9 -/

theorem dict_insert_keys {α : Type} : ∀ (d : List (Int × α)) (k : Int) (v : α),
    (dict_insert d k v).map Prod.fst =
      if k ∈ d.map Prod.fst then d.map Prod.fst else d.map Prod.fst ++ [k]
  | [], k, v => by simp [dict_insert]
  | (k0, v0) :: rest, k, v => by
    unfold dict_insert
    by_cases h0 : k0 = k
    · subst h0
      rw [if_pos rfl, if_pos (by simp)]
      rfl
    · rw [if_neg h0]
      have : (dict_insert rest k v).map Prod.fst =
          if k ∈ rest.map Prod.fst then rest.map Prod.fst else rest.map Prod.fst ++ [k] :=
        dict_insert_keys rest k v
      by_cases h2 : k ∈ rest.map Prod.fst
      · rw [if_pos h2] at this
        rw [if_pos (by simp [h2])]
        simp [this]
      · rw [if_neg h2] at this
        rw [if_neg (by simp [h2]; exact fun he => h0 he.symm)]
        simp [this]

theorem extract_keys_aux {α : Type} (getID : α → Int) : ∀ (es : List α) (d : List (Int × α)),
    (es.foldl (fun r e => dict_insert r (getID e) e) d).map Prod.fst =
      (es.map getID).foldl (fun acc k => if k ∈ acc then acc else acc ++ [k]) (d.map Prod.fst)
  | [], _ => rfl
  | e :: tl, d => by
    show (tl.foldl _ (dict_insert d (getID e) e)).map Prod.fst = _
    rw [extract_keys_aux getID tl (dict_insert d (getID e) e), dict_insert_keys]
    rfl

/-- C9: confirmed.  In this pure embedding every stage is a function of the
input document, so a run-to-run difference could only enter through the
enumeration order of the id-indexed tables; that order is itself a function
of the input alone: the keys of `extract_tlx_to_indexed_list` are exactly the
distinct ids of the input in first-occurrence order (CPython dict insertion
order), and the publications table emits one row per indexed publication in
exactly that order.  Joined strings (parameters, publication references,
author lists) are `", ".intercalate` over lists in document order, with no
unordered traversal anywhere. -/
theorem C9_deterministic_enumeration {α : Type} (getID : α → Int) (entries : List α)
    (publications : List (Int × Publication)) (contacts : List (Int × Contact)) :
    (extract_tlx_to_indexed_list getID entries).map Prod.fst =
      first_occurrence_keys (entries.map getID) ∧
    extract_publications_csv publications contacts =
      (publication_rows contacts (publications.map Prod.snd)).map
        (fun rows => PUBLICATION_FIELDS :: rows) := by
  constructor
  · unfold extract_tlx_to_indexed_list first_occurrence_keys
    rw [extract_keys_aux getID entries []]
    rfl
  · unfold extract_publications_csv
    cases publication_rows contacts (publications.map Prod.snd) <;> rfl

end Tilia
